import Mathlib

/-!
Shallow embedding of `lib/include/srslte/common/timers.h` (srsLTE).

The header defines two timer designs inside namespace `srslte`:
* `timers` — a fixed-capacity pool of `timers::timer` slots, stepped
  linearly, with a bitmap id allocator;
* `timers2` — a growable list of `timers2::timer_impl` slots driven by a
  priority queue of scheduled events (`timer_run`), accessed through
  move-only `unique_timer` handles.

`uint32_t` values are modelled as `Nat` with arithmetic reduced modulo
`U32 = 2^32` exactly where the C code can wrap (`counter++`, `cur_time++`,
`cur_time + duration`).  Callback invocation (`callback->timer_expired(id)`
resp. `callback(id())`) is modelled as emitting the slot id into an event
list; an `ERROR(...)` log is modelled as a returned `Bool` flag.
-/

namespace srslte

/-- `2^32`, the modulus of `uint32_t` arithmetic. -/
def U32 : Nat := 4294967296

/-! ## Fixed-pool design: `timers::timer` -/

/-- One slot of the fixed pool (`timers::timer`).  `callback` models the
`timer_callback*` pointer: `none` is `NULL`, `some c` a live callback with
tag `c`. -/
structure Timer where
  id : Nat
  callback : Option Nat
  timeout : Nat
  counter : Nat
  running : Bool
deriving DecidableEq

namespace Timer

/-- `timer(id_)`: `counter = 0; timeout = 0; running = false; callback = NULL`. -/
def mk0 (id_ : Nat) : Timer := ⟨id_, none, 0, 0, false⟩

/-- `reset()`: `counter = 0`. -/
def reset (t : Timer) : Timer := { t with counter := 0 }

/-- `set(callback_, timeout_)`: assigns `callback` and `timeout`, then calls
`reset()`.  The `running` flag is not touched. -/
def set (t : Timer) (cb : Option Nat) (timeout_ : Nat) : Timer :=
  { t with callback := cb, timeout := timeout_, counter := 0 }

/-- `is_running()`: `(counter < timeout) && running`. -/
def is_running (t : Timer) : Bool := decide (t.counter < t.timeout) && t.running

/-- `is_expired()`: `(timeout > 0) && (counter >= timeout)`. -/
def is_expired (t : Timer) : Bool := decide (0 < t.timeout) && decide (t.timeout ≤ t.counter)

/-- `run()`: `running = true`. -/
def run (t : Timer) : Timer := { t with running := true }

/-- `stop()`: `running = false`. -/
def stop (t : Timer) : Timer := { t with running := false }

/-- `step()`: if running, increment `counter` (mod `2^32`); if now expired,
clear `running` and invoke the callback (when non-NULL) with the slot id.
Returns the new slot and the list of callback invocations. -/
def step (t : Timer) : Timer × List Nat :=
  if t.running then
    let t1 : Timer := { t with counter := (t.counter + 1) % U32 }
    if t1.is_expired then
      ({ t1 with running := false },
       match t.callback with
       | some _ => [t.id]
       | none => [])
    else (t1, [])
  else (t, [])

/-- `step()` iterated `n` times, accumulating callback invocations. -/
def stepN : Nat → Timer → Timer × List Nat
  | 0, t => (t, [])
  | n + 1, t =>
    let p := step t
    let q := stepN n p.1
    (q.1, p.2 ++ q.2)

end Timer

/-! ## Fixed-pool design: the `timers` registry -/

/-- The `timers` registry: a fixed pool of `nof_timers` slots plus the id
allocator (`used_timers` bitmap and `nof_used_timers` count).  `next_timer`
is declared in the source but never used after construction; it is kept for
fidelity. -/
structure Timers where
  next_timer : Nat
  nof_used_timers : Nat
  nof_timers : Nat
  timer_list : List Timer
  used_timers : List Bool
deriving DecidableEq

namespace Timers

/-- `timers(nof_timers_)`: all slots constructed with ids `0..n-1`, bitmap
all-false, counts zeroed. -/
def mk0 (n : Nat) : Timers :=
  { next_timer := 0
    nof_used_timers := 0
    nof_timers := n
    timer_list := (List.range n).map Timer.mk0
    used_timers := List.replicate n false }

/-- `release_id(i)`: if `nof_used_timers > 0 && i < nof_timers`, mark `i`
free and decrement the used count; otherwise log an error (returned flag
`true`) and change nothing.  The source never checks whether `i` was
actually allocated. -/
def release_id (s : Timers) (i : Nat) : Timers × Bool :=
  if 0 < s.nof_used_timers ∧ i < s.nof_timers then
    ({ s with used_timers := s.used_timers.set i false,
              nof_used_timers := s.nof_used_timers - 1 }, false)
  else
    (s, true)

/-- Index of the first `false` entry of the bitmap (the scan loop inside
`get_unique_id`). -/
def firstFree : List Bool → Option Nat
  | [] => none
  | b :: bs => if b then (firstFree bs).map (· + 1) else some 0

/-- `get_unique_id()`: if `nof_used_timers >= nof_timers`, log and return
the sentinel id 0; else take the first free id, mark it used, increment the
count.  The trailing `ERROR`+`return 0` (scan found nothing although the
count said otherwise) is the final case.  Returns (id, new state, logged). -/
def get_unique_id (s : Timers) : Nat × Timers × Bool :=
  if s.nof_timers ≤ s.nof_used_timers then
    (0, s, true)
  else
    match firstFree s.used_timers with
    | some i =>
      (i, { s with used_timers := s.used_timers.set i true,
                   nof_used_timers := s.nof_used_timers + 1 }, false)
    | none => (0, s, true)

/-- `step_all()`: step every slot in id order, concatenating the callback
invocations. -/
def step_all (s : Timers) : Timers × List Nat :=
  let stepped := s.timer_list.map Timer.step
  ({ s with timer_list := stepped.map Prod.fst }, (stepped.map Prod.snd).flatten)

/-- `stop_all()`. -/
def stop_all (s : Timers) : Timers :=
  { s with timer_list := s.timer_list.map Timer.stop }

/-- `run_all()`. -/
def run_all (s : Timers) : Timers :=
  { s with timer_list := s.timer_list.map Timer.run }

/-- `reset_all()`. -/
def reset_all (s : Timers) : Timers :=
  { s with timer_list := s.timer_list.map Timer.reset }

end Timers

/-! ## Heap-scheduled design: `timers2` -/

/-- One slot of the heap-scheduled service (`timers2::timer_impl`).  The
`parent` back-pointer is implicit (a single service instance is modelled);
`callback` models the `std::function<void(uint32_t)>` value, `none` being
the empty function installed by default construction and by `clear()`. -/
structure TimerImpl where
  duration : Nat
  timeout : Nat
  running : Bool
  active : Bool
  callback : Option Nat
deriving DecidableEq

namespace TimerImpl

/-- `timer_impl(parent)`: in-class initialisers `duration = 0, timeout = 0,
running = false, active = false`, default-constructed callback. -/
def mk0 : TimerImpl := ⟨0, 0, false, false, none⟩

/-- `is_running()`: `active and running and timeout > 0`. -/
def is_running (t : TimerImpl) : Bool :=
  t.active && t.running && decide (0 < t.timeout)

/-- `is_expired()`: `active and not running and timeout > 0`. -/
def is_expired (t : TimerImpl) : Bool :=
  t.active && !t.running && decide (0 < t.timeout)

/-- `clear()`: zero everything and deactivate; does not call the callback. -/
def clear (_ : TimerImpl) : TimerImpl := mk0

end TimerImpl

/-- The move-only `unique_timer` handle.  `owns = true` models a non-null
`parent` pointer (the single service instance). -/
structure UniqueTimer where
  owns : Bool
  timer_id : Nat
deriving DecidableEq

/-- The `timers2` service.  `running_timers` models the
`std::priority_queue<timer_run>` as a list of `(timer_id, timeout)` pairs
kept sorted by ascending `timeout` (the queue's `operator<` reverses the
comparison, so `top()` is the minimum timeout); ties are broken
arbitrarily, which the queue leaves unspecified as well. -/
structure Timers2 where
  timer_list : List TimerImpl
  running_timers : List (Nat × Nat)
  cur_time : Nat
deriving DecidableEq

namespace Timers2

/-- A fresh service: empty slot list, empty queue, `cur_time = 0`. -/
def mk0 : Timers2 := ⟨[], [], 0⟩

/-- Insert a scheduled event keeping the list sorted by ascending timeout
(the abstraction of `running_timers.emplace(...)`). -/
def heapInsert (e : Nat × Nat) : List (Nat × Nat) → List (Nat × Nat)
  | [] => [e]
  | x :: xs => if e.2 < x.2 then e :: x :: xs else x :: heapInsert e xs

/-- `timer_impl::set(duration_, callback_)` reached through
`unique_timer::set`: no-op with an error log if the slot is inactive;
otherwise store callback and duration and clear `running` (invalidates any
on-going run).  Returns (new state, logged). -/
def timerSetCb (i d cb : Nat) (s : Timers2) : Timers2 × Bool :=
  match s.timer_list[i]? with
  | some sl =>
    if sl.active then
      ({ s with timer_list :=
           s.timer_list.set i { sl with callback := some cb, duration := d, running := false } },
       false)
    else (s, true)
  | none => (s, true)

/-- `timer_impl::set(duration_)` (callback retained). -/
def timerSet (i d : Nat) (s : Timers2) : Timers2 × Bool :=
  match s.timer_list[i]? with
  | some sl =>
    if sl.active then
      ({ s with timer_list :=
           s.timer_list.set i { sl with duration := d, running := false } },
       false)
    else (s, true)
  | none => (s, true)

/-- `timer_impl::run()`: no-op with an error log if inactive; otherwise
`timeout = cur_time + duration` (mod `2^32`), push the event, set
`running`. -/
def timerRun (i : Nat) (s : Timers2) : Timers2 × Bool :=
  match s.timer_list[i]? with
  | some sl =>
    if sl.active then
      let tmo := (s.cur_time + sl.duration) % U32
      ({ s with timer_list := s.timer_list.set i { sl with timeout := tmo, running := true },
                running_timers := heapInsert (i, tmo) s.running_timers },
       false)
    else (s, true)
  | none => (s, true)

/-- `unique_timer::stop()`: pokes `impl()->running = false` directly — no
active check, no log (flag always `false`). -/
def timerStop (i : Nat) (s : Timers2) : Timers2 × Bool :=
  match s.timer_list[i]? with
  | some sl =>
    ({ s with timer_list := s.timer_list.set i { sl with running := false } }, false)
  | none => (s, false)

/-- The drain loop of `step_all()`: while the queue is non-empty and
`cur_time > top().timeout`, pop; trigger (fire the callback and clear
`running`) only when the slot's current timeout still equals the recorded
one and `is_running()` holds.  Returns (slots, remaining queue, fired
ids). -/
def stepLoop (cur : Nat) (tl : List TimerImpl) :
    List (Nat × Nat) → List TimerImpl × List (Nat × Nat) × List Nat
  | [] => (tl, [], [])
  | (tid, tmo) :: rest =>
    if tmo < cur then
      match tl[tid]? with
      | some sl =>
        if sl.timeout = tmo then
          if sl.is_running then
            let r := stepLoop cur (tl.set tid { sl with running := false }) rest
            (r.1, r.2.1, tid :: r.2.2)
          else stepLoop cur tl rest
        else stepLoop cur tl rest
      | none => stepLoop cur tl rest
    else (tl, (tid, tmo) :: rest, [])

/-- `timers2::step_all()`: increment `cur_time` (mod `2^32`) then drain all
strictly-past events. -/
def step_all (s : Timers2) : Timers2 × List Nat :=
  let cur := (s.cur_time + 1) % U32
  let r := stepLoop cur s.timer_list s.running_timers
  (⟨r.1, r.2.1, cur⟩, r.2.2)

/-- `step_all()` iterated `n` times, accumulating fired ids. -/
def stepAllN : Nat → Timers2 → Timers2 × List Nat
  | 0, s => (s, [])
  | n + 1, s =>
    let p := step_all s
    let q := stepAllN n p.1
    (q.1, p.2 ++ q.2)

/-- `timers2::stop_all()`: drain the queue without firing and clear every
slot's `running` flag. -/
def stop_all (s : Timers2) : Timers2 :=
  { s with running_timers := [],
           timer_list := s.timer_list.map (fun sl => { sl with running := false }) }

/-- Index of the first inactive slot (the scan loop of
`get_unique_timer`). -/
def findInactive : List TimerImpl → Option Nat
  | [] => none
  | sl :: rest => if sl.active then (findInactive rest).map (· + 1) else some 0

/-- `timers2::get_unique_timer()`: reuse the first inactive slot, else
append a fresh one; mark it active and hand out an owning handle. -/
def get_unique_timer (s : Timers2) : Timers2 × UniqueTimer :=
  match findInactive s.timer_list with
  | some i =>
    ({ s with timer_list :=
        match s.timer_list[i]? with
        | some sl => s.timer_list.set i { sl with active := true }
        | none => s.timer_list },
     ⟨true, i⟩)
  | none =>
    ({ s with timer_list := s.timer_list ++ [{ TimerImpl.mk0 with active := true }] },
     ⟨true, s.timer_list.length⟩)

/-- `~unique_timer()`: `if (parent) impl()->clear();` — clears the owned
slot, never invokes the callback (the returned event list is always
empty). -/
def destroyTimer (s : Timers2) (h : UniqueTimer) : Timers2 × List Nat :=
  if h.owns then
    ({ s with timer_list := s.timer_list.set h.timer_id TimerImpl.mk0 }, [])
  else (s, [])

/-- The move constructor `unique_timer(unique_timer&&)`: the new handle
copies `parent`/`timer_id`, the source's `parent` becomes null.  Returns
(moved-to, moved-from). -/
def moveCtor (h : UniqueTimer) : UniqueTimer × UniqueTimer :=
  (⟨h.owns, h.timer_id⟩, ⟨false, h.timer_id⟩)

/-- Move assignment `operator=(unique_timer&&)` together with the
(untouched) service state: only the two handles' fields change — the slot
previously owned by `dst` is neither cleared nor deactivated.  Returns
(service, new dst, new src). -/
def moveAssign (s : Timers2) (_dst src : UniqueTimer) : Timers2 × UniqueTimer × UniqueTimer :=
  (s, ⟨src.owns, src.timer_id⟩, ⟨false, src.timer_id⟩)

/-- Whether slot `i` of a slot list has `active = true`. -/
def activeIn (i : Nat) (tl : List TimerImpl) : Bool :=
  match tl[i]? with
  | some sl => sl.active
  | none => false

/-- Whether slot `i` currently has `active = true`. -/
def activeAt (i : Nat) (s : Timers2) : Bool :=
  activeIn i s.timer_list

/-- The service-level operations a caller can perform on a `timers2`
instance through its public interface; `destroy i` is the destruction of a
live handle owning slot `i`. -/
inductive Op where
  | stepOne : Op
  | stopEverything : Op
  | runT : Nat → Op
  | setT : Nat → Nat → Op
  | setTC : Nat → Nat → Nat → Op
  | stopT : Nat → Op
  | getU : Op
  | destroy : Nat → Op
deriving DecidableEq

/-- Apply one operation (results and logs discarded). -/
def applyOp (s : Timers2) : Op → Timers2
  | Op.stepOne => (step_all s).1
  | Op.stopEverything => stop_all s
  | Op.runT i => (timerRun i s).1
  | Op.setT i d => (timerSet i d s).1
  | Op.setTC i d cb => (timerSetCb i d cb s).1
  | Op.stopT i => (timerStop i s).1
  | Op.getU => (get_unique_timer s).1
  | Op.destroy i => (destroyTimer s ⟨true, i⟩).1

/-- Apply a sequence of operations left to right. -/
def applyOps (s : Timers2) : List Op → Timers2
  | [] => s
  | op :: rest => applyOps (applyOp s op) rest

end Timers2

end srslte


namespace srslte

/-- An index that successfully reads `some` is within bounds. -/
theorem getElem?_some_lt {α : Type} {l : List α} {i : Nat} {a : α}
    (h : l[i]? = some a) : i < l.length := by
  by_contra hc
  rw [List.getElem?_eq_none (by omega)] at h
  exact Option.noConfusion h

/-- A `step()` that does not reach the timeout just increments the counter. -/
theorem Timer.step_quiet (t : Timer) (hrun : t.running = true)
    (hlt : t.counter + 1 < t.timeout) (hU : t.timeout < U32) :
    Timer.step t = ({ t with counter := t.counter + 1 }, []) := by
  have h1 : (t.counter + 1) % U32 = t.counter + 1 := Nat.mod_eq_of_lt (by omega)
  have h2 : ¬ (t.timeout ≤ t.counter + 1) := by omega
  simp [Timer.step, Timer.is_expired, hrun, h1, h2]

/-- A `step()` that reaches the timeout fires the (non-NULL) callback and
clears `running`. -/
theorem Timer.step_fire (t : Timer) (c : Nat) (hrun : t.running = true)
    (hU : t.counter + 1 < U32) (hT : 0 < t.timeout) (hexp : t.timeout ≤ t.counter + 1)
    (hcb : t.callback = some c) :
    Timer.step t = ({ t with counter := t.counter + 1, running := false }, [t.id]) := by
  have h1 : (t.counter + 1) % U32 = t.counter + 1 := Nat.mod_eq_of_lt hU
  simp [Timer.step, Timer.is_expired, hrun, h1, hT, hexp, hcb]

/-- Stepping `k` times strictly below the timeout only advances the counter. -/
theorem Timer.stepN_quiet : ∀ (k : Nat) (t : Timer), t.running = true →
    t.counter + k < t.timeout → t.timeout < U32 →
    Timer.stepN k t = ({ t with counter := t.counter + k }, []) := by
  intro k
  induction k with
  | zero => intro t hrun hk hU; simp [Timer.stepN]
  | succ n ih =>
    intro t hrun hk hU
    have hstep := Timer.step_quiet t hrun (by omega) hU
    have ih2 := ih { t with counter := t.counter + 1 } hrun (by simp; omega) hU
    have harith : t.counter + 1 + n = t.counter + (n + 1) := by omega
    rw [harith] at ih2
    simp [Timer.stepN, hstep, ih2]

/-- `stepN` peeled from the back. -/
theorem Timer.stepN_succ_back : ∀ (n : Nat) (t : Timer),
    Timer.stepN (n + 1) t =
      ((Timer.step (Timer.stepN n t).1).1,
       (Timer.stepN n t).2 ++ (Timer.step (Timer.stepN n t).1).2) := by
  intro n
  induction n with
  | zero => intro t; simp [Timer.stepN]
  | succ n ih =>
    intro t
    have h1 : Timer.stepN (n + 1 + 1) t =
        ((Timer.stepN (n + 1) (Timer.step t).1).1,
         (Timer.step t).2 ++ (Timer.stepN (n + 1) (Timer.step t).1).2) := rfl
    have h2 : Timer.stepN (n + 1) t =
        ((Timer.stepN n (Timer.step t).1).1,
         (Timer.step t).2 ++ (Timer.stepN n (Timer.step t).1).2) := rfl
    rw [h1, ih ((Timer.step t).1), h2]
    simp

/-- A freshly armed-and-run slot fires its callback exactly once, on the
step on which the counter reaches the timeout. -/
theorem Timer.armed_fires (t : Timer) (c T : Nat) (hrun : t.running = true)
    (hcnt : t.counter = 0) (htmo : t.timeout = T) (hT : 0 < T) (hU : T < U32)
    (hcb : t.callback = some c) :
    Timer.stepN T t = ({ t with counter := T, running := false }, [t.id]) := by
  obtain ⟨m, hm⟩ : ∃ m, T = m + 1 := ⟨T - 1, by omega⟩
  have hq := Timer.stepN_quiet m t hrun (by omega) (by omega)
  have hb := Timer.stepN_succ_back m t
  have hf := Timer.step_fire { t with counter := t.counter + m } c hrun
    (show t.counter + m + 1 < U32 by omega)
    (show 0 < t.timeout by omega)
    (show t.timeout ≤ t.counter + m + 1 by omega) hcb
  rw [hm, hb, hq, hf]
  have harith : t.counter + m + 1 = m + 1 := by omega
  rw [harith]
  simp

end srslte

namespace srslte

/-- C1, counterexample.  With `T = 1`: a slot on which `set(callback, 1)`
and `run()` were called and whose `step()` is invoked exactly `T = 1` times
has already fired its callback, is expired and is no longer running — the
claim asserts it would still be running and not expired after `T` steps and
fire only on the `(T+1)`-th. -/
theorem C1_counterexample :
    (Timer.stepN 1 (Timer.run (Timer.set (Timer.mk0 3) (some 0) 1))).1.is_running = false ∧
    (Timer.stepN 1 (Timer.run (Timer.set (Timer.mk0 3) (some 0) 1))).1.is_expired = true ∧
    (Timer.stepN 1 (Timer.run (Timer.set (Timer.mk0 3) (some 0) 1))).2 = [3] := by
  decide

/-- C1, amended.  A fixed-pool slot on which `set(callback, T)` and `run()`
were called (counter starting at 0), with `1 ≤ T < 2^32`, is still running
and not expired after exactly `T - 1` calls to `step()`, with no callback
invocation; the `T`-th `step()` fires the callback exactly once, after
which the slot is no longer running. -/
theorem C1_fixed_pool_expiry (t : Timer) (c T : Nat) (hT : 0 < T) (hU : T < U32) :
    (Timer.stepN (T - 1) (Timer.run (Timer.set t (some c) T))).1.is_running = true ∧
    (Timer.stepN (T - 1) (Timer.run (Timer.set t (some c) T))).1.is_expired = false ∧
    (Timer.stepN (T - 1) (Timer.run (Timer.set t (some c) T))).2 = [] ∧
    Timer.stepN T (Timer.run (Timer.set t (some c) T)) =
      ({ t with callback := some c, timeout := T, counter := T, running := false }, [t.id]) := by
  have hq := Timer.stepN_quiet (T - 1) (Timer.run (Timer.set t (some c) T)) rfl
    (show 0 + (T - 1) < T by omega) (show T < U32 from hU)
  rw [hq]
  refine ⟨?_, ?_, rfl, ?_⟩
  · simp [Timer.is_running, Timer.run, Timer.set]
    omega
  · simp [Timer.is_expired, Timer.run, Timer.set]
  · exact Timer.armed_fires (Timer.run (Timer.set t (some c) T)) c T rfl rfl rfl hT hU rfl

/-- C1, witness for the amended theorem at `T = 2`. -/
theorem C1_fixed_pool_expiry_witness :
    (Timer.stepN 1 (Timer.run (Timer.set (Timer.mk0 5) (some 9) 2))).1.is_running = true ∧
    (Timer.stepN 1 (Timer.run (Timer.set (Timer.mk0 5) (some 9) 2))).1.is_expired = false ∧
    (Timer.stepN 1 (Timer.run (Timer.set (Timer.mk0 5) (some 9) 2))).2 = [] ∧
    Timer.stepN 2 (Timer.run (Timer.set (Timer.mk0 5) (some 9) 2)) =
      (⟨5, some 9, 2, 2, false⟩, [5]) :=
  C1_fixed_pool_expiry (Timer.mk0 5) 9 2 (by decide) (by decide)

/-- C4, counterexample.  A running slot (`timeout = 5`, `counter = 2`,
`running = true`) on which `set(callback, 3)` is called is still
`is_running()` immediately afterwards, and three `step()` calls — with no
intervening `run()` — fire the new callback: `set` does not cancel the
pending run, because it never touches the `running` flag. -/
theorem C4_counterexample :
    (Timer.set ⟨0, some 0, 5, 2, true⟩ (some 1) 3).is_running = true ∧
    (Timer.stepN 3 (Timer.set ⟨0, some 0, 5, 2, true⟩ (some 1) 3)).2 = [0] := by
  decide

/-- C4, amended.  `set(callback, timeout)` assigns the callback and timeout
fields and resets the counter to 0, but leaves the `running` flag
unchanged: a slot that was running stays running, and (for
`1 ≤ T < 2^32`) `T` further `step()` calls fire the newly registered
callback exactly once without any intervening `run()`. -/
theorem C4_set_keeps_running (t : Timer) (c T : Nat) (hrun : t.running = true)
    (hT : 0 < T) (hU : T < U32) :
    Timer.set t (some c) T = { t with callback := some c, timeout := T, counter := 0 } ∧
    (Timer.set t (some c) T).running = t.running ∧
    Timer.stepN T (Timer.set t (some c) T) =
      ({ t with callback := some c, timeout := T, counter := T, running := false }, [t.id]) := by
  refine ⟨rfl, rfl, ?_⟩
  exact Timer.armed_fires (Timer.set t (some c) T) c T hrun rfl rfl hT hU rfl

/-- C4, witness for the amended theorem. -/
theorem C4_set_keeps_running_witness :
    Timer.set ⟨4, some 0, 5, 2, true⟩ (some 8) 3 = ⟨4, some 8, 3, 0, true⟩ ∧
    (Timer.set ⟨4, some 0, 5, 2, true⟩ (some 8) 3).running = true ∧
    Timer.stepN 3 (Timer.set ⟨4, some 0, 5, 2, true⟩ (some 8) 3) =
      (⟨4, some 8, 3, 3, false⟩, [4]) :=
  C4_set_keeps_running ⟨4, some 0, 5, 2, true⟩ 8 3 rfl (by decide) (by decide)

/-- C8, counterexample.  An expired slot with `timeout = counter =
2^32 - 1` and a live callback: after `run()`, the next `step()` wraps the
`uint32_t` counter to 0, does not fire the callback, and leaves the slot
running — the claim asserts every such slot fires again on the very next
step. -/
theorem C8_counterexample :
    Timer.step (Timer.run ⟨0, some 0, 4294967295, 4294967295, false⟩) =
      (⟨0, some 0, 4294967295, 0, true⟩, []) := by
  decide

/-- C8, amended.  For every fixed-pool slot in a fired state (`timeout >
0`, `counter ≥ timeout`, `running = false`, callback present) whose counter
does not wrap (`counter + 1 < 2^32`), calling `run()` alone makes the very
next `step()` increment the counter and invoke the callback again, so one
arming can fire more than once. -/
theorem C8_rerun_refires (t : Timer) (c : Nat) (hT : 0 < t.timeout)
    (hexp : t.timeout ≤ t.counter) (_hstopped : t.running = false)
    (hU : t.counter + 1 < U32) (hcb : t.callback = some c) :
    Timer.step (Timer.run t) = ({ t with counter := t.counter + 1, running := false }, [t.id]) :=
  Timer.step_fire (Timer.run t) c rfl hU hT (Nat.le_succ_of_le hexp) hcb

/-- C8, witness for the amended theorem. -/
theorem C8_rerun_refires_witness :
    Timer.step (Timer.run ⟨2, some 6, 4, 4, false⟩) = (⟨2, some 6, 4, 5, false⟩, [2]) :=
  C8_rerun_refires ⟨2, some 6, 4, 4, false⟩ 6 (by decide) (by decide) rfl (by decide) rfl

/-- C5, counterexample.  Capacity-2 registry with only id 0 allocated
(bitmap `[true, false]`, used-count 1): `release_id(1)` releases an id that
is not currently allocated, yet it does not log (flag `false`) and it
changes the allocator state, decrementing the used-count from 1 to 0 — the
claim asserts an error log and no state change. -/
theorem C5_counterexample :
    ((Timers.get_unique_id (Timers.mk0 2)).2.1.used_timers = [true, false]) ∧
    ((Timers.get_unique_id (Timers.mk0 2)).2.1.nof_used_timers = 1) ∧
    (Timers.release_id (Timers.get_unique_id (Timers.mk0 2)).2.1 1).2 = false ∧
    (Timers.release_id (Timers.get_unique_id (Timers.mk0 2)).2.1 1).1.nof_used_timers = 0 := by
  decide

/-- C5, amended.  `release_id(i)` logs an error and leaves the allocator
state unchanged exactly when the used-count is zero or `i` is out of range
(`i ≥ nof_timers`); whenever the used-count is positive and `i` is in
range it marks `i` free and decrements the used-count without logging,
even if `i` was not currently allocated. -/
theorem C5_release_id_semantics (s : Timers) (i : Nat) :
    (s.nof_used_timers = 0 ∨ s.nof_timers ≤ i → Timers.release_id s i = (s, true)) ∧
    (0 < s.nof_used_timers → i < s.nof_timers →
      Timers.release_id s i =
        ({ s with used_timers := s.used_timers.set i false,
                  nof_used_timers := s.nof_used_timers - 1 }, false)) := by
  constructor
  · intro h
    rw [Timers.release_id, if_neg (by omega)]
  · intro h1 h2
    rw [Timers.release_id, if_pos ⟨h1, h2⟩]

/-- C5, witness for the amended theorem: both branches at concrete
registries. -/
theorem C5_release_id_semantics_witness :
    Timers.release_id (Timers.mk0 2) 0 = (Timers.mk0 2, true) ∧
    Timers.release_id ⟨0, 1, 2, [], [true, false]⟩ 1 = (⟨0, 0, 2, [], [true, false]⟩, false) :=
  ⟨(C5_release_id_semantics (Timers.mk0 2) 0).1 (Or.inl rfl),
   (C5_release_id_semantics ⟨0, 1, 2, [], [true, false]⟩ 1).2 (by decide) (by decide)⟩

/-- C6.  On a registry of capacity 4, four `get_unique_id()` calls return
ids 0, 1, 2, 3 (each marked used, no error), and a fifth call logs the
exhaustion error, returns the sentinel id 0, and leaves the state — in
particular the used-count 4 and the bitmap — unchanged. -/
theorem C6_allocation_exhausted :
    (Timers.get_unique_id (Timers.mk0 4)).1 = 0 ∧
    (Timers.get_unique_id (Timers.mk0 4)).2.2 = false ∧
    (Timers.get_unique_id (Timers.get_unique_id (Timers.mk0 4)).2.1).1 = 1 ∧
    (Timers.get_unique_id (Timers.get_unique_id (Timers.mk0 4)).2.1).2.2 = false ∧
    (Timers.get_unique_id (Timers.get_unique_id (Timers.get_unique_id
        (Timers.mk0 4)).2.1).2.1).1 = 2 ∧
    (Timers.get_unique_id (Timers.get_unique_id (Timers.get_unique_id
        (Timers.mk0 4)).2.1).2.1).2.2 = false ∧
    (Timers.get_unique_id (Timers.get_unique_id (Timers.get_unique_id (Timers.get_unique_id
        (Timers.mk0 4)).2.1).2.1).2.1).1 = 3 ∧
    (Timers.get_unique_id (Timers.get_unique_id (Timers.get_unique_id (Timers.get_unique_id
        (Timers.mk0 4)).2.1).2.1).2.1).2.2 = false ∧
    (Timers.get_unique_id (Timers.get_unique_id (Timers.get_unique_id (Timers.get_unique_id
        (Timers.mk0 4)).2.1).2.1).2.1).2.1.used_timers = [true, true, true, true] ∧
    (Timers.get_unique_id (Timers.get_unique_id (Timers.get_unique_id (Timers.get_unique_id
        (Timers.mk0 4)).2.1).2.1).2.1).2.1.nof_used_timers = 4 ∧
    Timers.get_unique_id ((Timers.get_unique_id (Timers.get_unique_id (Timers.get_unique_id
        (Timers.get_unique_id (Timers.mk0 4)).2.1).2.1).2.1).2.1) =
      (0, (Timers.get_unique_id (Timers.get_unique_id (Timers.get_unique_id
        (Timers.get_unique_id (Timers.mk0 4)).2.1).2.1).2.1).2.1, true) := by
  decide

end srslte

namespace srslte

/-- The drain loop does nothing when no queued event is strictly past. -/
theorem Timers2.stepLoop_quiet (cur : Nat) (tl : List TimerImpl)
    (heap : List (Nat × Nat)) (h : ∀ e ∈ heap, ¬ (e.2 < cur)) :
    Timers2.stepLoop cur tl heap = (tl, heap, []) := by
  cases heap with
  | nil => rfl
  | cons e rest =>
    obtain ⟨tid, tmo⟩ := e
    have hn := h (tid, tmo) (List.mem_cons_self ..)
    simp only [Timers2.stepLoop, if_neg hn]

/-- `step_all()` iterated while every queued timeout is at least the final
time only advances `cur_time` and fires nothing. -/
theorem Timers2.stepAllN_quiet : ∀ (k : Nat) (s : Timers2),
    (∀ e ∈ s.running_timers, s.cur_time + k ≤ e.2) → s.cur_time + k < U32 →
    Timers2.stepAllN k s = ({ s with cur_time := s.cur_time + k }, []) := by
  intro k
  induction k with
  | zero => intro s h hU; simp [Timers2.stepAllN]
  | succ n ih =>
    intro s h hU
    have hmod : (s.cur_time + 1) % U32 = s.cur_time + 1 := Nat.mod_eq_of_lt (by omega)
    have hq : Timers2.stepLoop (s.cur_time + 1) s.timer_list s.running_timers =
        (s.timer_list, s.running_timers, []) :=
      Timers2.stepLoop_quiet _ _ _ (fun e he => by have := h e he; omega)
    have hstep : Timers2.step_all s = ({ s with cur_time := s.cur_time + 1 }, []) := by
      simp [Timers2.step_all, hmod, hq]
    have ih2 := ih { s with cur_time := s.cur_time + 1 }
      (fun e he => by
        have := h e he
        show s.cur_time + 1 + n ≤ e.2
        omega)
      (show s.cur_time + 1 + n < U32 by omega)
    have harith : s.cur_time + 1 + n = s.cur_time + (n + 1) := by omega
    rw [harith] at ih2
    simp [Timers2.stepAllN, hstep, ih2]

/-- `stepAllN` peeled from the back. -/
theorem Timers2.stepAllN_succ_back : ∀ (n : Nat) (s : Timers2),
    Timers2.stepAllN (n + 1) s =
      ((Timers2.step_all (Timers2.stepAllN n s).1).1,
       (Timers2.stepAllN n s).2 ++ (Timers2.step_all (Timers2.stepAllN n s).1).2) := by
  intro n
  induction n with
  | zero => intro s; simp [Timers2.stepAllN]
  | succ n ih =>
    intro s
    have h1 : Timers2.stepAllN (n + 1 + 1) s =
        ((Timers2.stepAllN (n + 1) (Timers2.step_all s).1).1,
         (Timers2.step_all s).2 ++ (Timers2.stepAllN (n + 1) (Timers2.step_all s).1).2) := rfl
    have h2 : Timers2.stepAllN (n + 1) s =
        ((Timers2.stepAllN n (Timers2.step_all s).1).1,
         (Timers2.step_all s).2 ++ (Timers2.stepAllN n (Timers2.step_all s).1).2) := rfl
    rw [h1, ih ((Timers2.step_all s).1), h2]
    simp

/-- One `step_all()` on a single-slot service whose only queued event just
became strictly past fires that slot exactly once. -/
theorem Timers2.step_all_fire_single (sl : TimerImpl) (tmo cur : Nat)
    (hact : sl.active = true) (hrun : sl.running = true) (htmo : sl.timeout = tmo)
    (hpos : 0 < tmo) (hcur : (cur + 1) % U32 = cur + 1) (hgt : tmo < cur + 1) :
    Timers2.step_all ⟨[sl], [(0, tmo)], cur⟩ =
      (⟨[{ sl with running := false }], [], cur + 1⟩, [0]) := by
  simp [Timers2.step_all, hcur, Timers2.stepLoop, hgt, htmo, TimerImpl.is_running,
        hact, hrun, hpos]

end srslte

namespace srslte

/-- C2, counterexample.  With `cur_time = T = 0` and `D = 0`: `set(0)` then
`run()` gives the slot an absolute `timeout` of 0, so `is_running()` is
false and the `(D+1)`-th `step_all()` (at `cur_time = 1`) pops the event
but fires nothing — the claim asserts the callback fires exactly once
there.  The queue is empty afterwards, so the arming can never fire. -/
theorem C2_counterexample :
    (Timers2.stepAllN 1 ((Timers2.timerRun 0 ((Timers2.timerSetCb 0 0 7
        ((Timers2.get_unique_timer ⟨[], [], 0⟩).1)).1)).1)).2 = [] ∧
    (Timers2.stepAllN 1 ((Timers2.timerRun 0 ((Timers2.timerSetCb 0 0 7
        ((Timers2.get_unique_timer ⟨[], [], 0⟩).1)).1)).1)).1.running_timers = [] := by
  decide

/-- C2, amended.  For every duration `D` and start time `T` with
`T + D ≥ 1` (so that the absolute timeout is nonzero) and `T + D + 1 <
2^32` (no `uint32_t` wraparound), a handle on which `set(D)` (with a
callback) then `run()` is called while `cur_time = T` has not fired after
exactly `D` subsequent `step_all()` calls (`cur_time = T + D`), and fires
its callback exactly once on the next `step_all()` call
(`cur_time = T + D + 1`). -/
theorem C2_heap_expiry (T D cb : Nat) (hpos : 0 < T + D) (hU : T + D + 1 < U32) :
    (Timers2.stepAllN D ((Timers2.timerRun 0 ((Timers2.timerSetCb 0 D cb
        ((Timers2.get_unique_timer ⟨[], [], T⟩).1)).1)).1)).2 = [] ∧
    (Timers2.stepAllN D ((Timers2.timerRun 0 ((Timers2.timerSetCb 0 D cb
        ((Timers2.get_unique_timer ⟨[], [], T⟩).1)).1)).1)).1.cur_time = T + D ∧
    (Timers2.stepAllN (D + 1) ((Timers2.timerRun 0 ((Timers2.timerSetCb 0 D cb
        ((Timers2.get_unique_timer ⟨[], [], T⟩).1)).1)).1)).2 = [0] := by
  have hmod : (T + D) % U32 = T + D := Nat.mod_eq_of_lt (by omega)
  have hs3 : (Timers2.timerRun 0 ((Timers2.timerSetCb 0 D cb
      ((Timers2.get_unique_timer ⟨[], [], T⟩).1)).1)).1 =
      ⟨[⟨D, T + D, true, true, some cb⟩], [(0, T + D)], T⟩ := by
    simp [Timers2.get_unique_timer, Timers2.findInactive, Timers2.timerSetCb,
          Timers2.timerRun, Timers2.heapInsert, TimerImpl.mk0, hmod]
  rw [hs3]
  have hquiet := Timers2.stepAllN_quiet D ⟨[⟨D, T + D, true, true, some cb⟩], [(0, T + D)], T⟩
    (by
      intro e he
      simp at he
      subst he
      show T + D ≤ T + D
      omega)
    (show T + D < U32 by omega)
  have hback := Timers2.stepAllN_succ_back D ⟨[⟨D, T + D, true, true, some cb⟩], [(0, T + D)], T⟩
  have hfire := Timers2.step_all_fire_single ⟨D, T + D, true, true, some cb⟩ (T + D) (T + D)
    rfl rfl rfl hpos (Nat.mod_eq_of_lt hU) (by omega)
  rw [hquiet] at hback
  refine ⟨by rw [hquiet], by rw [hquiet], ?_⟩
  rw [hback]
  simp only [hfire]
  simp

end srslte

namespace srslte

/-- C2, witness for the amended theorem at `T = 2`, `D = 3`. -/
theorem C2_heap_expiry_witness :
    (Timers2.stepAllN 3 ((Timers2.timerRun 0 ((Timers2.timerSetCb 0 3 7
        ((Timers2.get_unique_timer ⟨[], [], 2⟩).1)).1)).1)).2 = [] ∧
    (Timers2.stepAllN 3 ((Timers2.timerRun 0 ((Timers2.timerSetCb 0 3 7
        ((Timers2.get_unique_timer ⟨[], [], 2⟩).1)).1)).1)).1.cur_time = 5 ∧
    (Timers2.stepAllN 4 ((Timers2.timerRun 0 ((Timers2.timerSetCb 0 3 7
        ((Timers2.get_unique_timer ⟨[], [], 2⟩).1)).1)).1)).2 = [0] :=
  C2_heap_expiry 2 3 7 (by decide) (by decide)


/-- Unfolding equation for the drain loop on a non-empty queue. -/
theorem Timers2.stepLoop_cons (cur : Nat) (tl : List TimerImpl) (tid tmo : Nat)
    (rest : List (Nat × Nat)) :
    Timers2.stepLoop cur tl ((tid, tmo) :: rest) =
      if tmo < cur then
        match tl[tid]? with
        | some sl =>
          if sl.timeout = tmo then
            if sl.is_running then
              ((Timers2.stepLoop cur (tl.set tid { sl with running := false }) rest).1,
               (Timers2.stepLoop cur (tl.set tid { sl with running := false }) rest).2.1,
               tid :: (Timers2.stepLoop cur (tl.set tid { sl with running := false }) rest).2.2)
            else Timers2.stepLoop cur tl rest
          else Timers2.stepLoop cur tl rest
        | none => Timers2.stepLoop cur tl rest
      else (tl, (tid, tmo) :: rest, []) := rfl

/-- If slot `i` does not have both `active` and `running` set, the drain
loop never fires `i` and preserves that property (a trigger only ever
touches a slot that is `is_running`, and only clears its `running`
flag). -/
theorem Timers2.stepLoop_no_fire : ∀ (heap : List (Nat × Nat)) (cur : Nat)
    (tl : List TimerImpl) (i : Nat),
    (∀ sl, tl[i]? = some sl → (sl.active && sl.running) = false) →
    i ∉ (Timers2.stepLoop cur tl heap).2.2 ∧
    (∀ sl, (Timers2.stepLoop cur tl heap).1[i]? = some sl →
      (sl.active && sl.running) = false) := by
  intro heap
  induction heap with
  | nil =>
    intro cur tl i h
    exact ⟨by simp [Timers2.stepLoop], by simpa [Timers2.stepLoop] using h⟩
  | cons e rest ih =>
    intro cur tl i h
    obtain ⟨tid, tmo⟩ := e
    rw [Timers2.stepLoop_cons]
    split
    · split
      · next sl heq =>
        split
        · split
          · next hrun =>
            have hne : tid ≠ i := by
              intro hcontra
              subst hcontra
              have hfalse := h sl heq
              rw [TimerImpl.is_running, hfalse] at hrun
              simp at hrun
            have hpres : ∀ sl2, (tl.set tid { sl with running := false })[i]? = some sl2 →
                (sl2.active && sl2.running) = false := by
              intro sl2 h2
              rw [List.getElem?_set_ne hne] at h2
              exact h sl2 h2
            have hrec := ih cur (tl.set tid { sl with running := false }) i hpres
            refine ⟨?_, hrec.2⟩
            intro hc
            rcases List.mem_cons.mp hc with h' | h'
            · exact hne h'.symm
            · exact hrec.1 h'
          · exact ih cur tl i h
        · exact ih cur tl i h
      · exact ih cur tl i h
    · exact ⟨by simp, h⟩

/-- Iterating `step_all()` never fires slot `i` while `i` is not both
active and running; nothing inside `step_all()` can set `running`. -/
theorem Timers2.stepAllN_no_fire : ∀ (n : Nat) (s : Timers2) (i : Nat),
    (∀ sl, s.timer_list[i]? = some sl → (sl.active && sl.running) = false) →
    i ∉ (Timers2.stepAllN n s).2 := by
  intro n
  induction n with
  | zero => intro s i h; simp [Timers2.stepAllN]
  | succ n ih =>
    intro s i h
    have h1 := Timers2.stepLoop_no_fire s.running_timers ((s.cur_time + 1) % U32)
      s.timer_list i h
    have hmem : i ∉ (Timers2.stepAllN (n + 1) s).2 ↔
        i ∉ (Timers2.step_all s).2 ∧ i ∉ (Timers2.stepAllN n (Timers2.step_all s).1).2 := by
      show i ∉ (Timers2.step_all s).2 ++ (Timers2.stepAllN n (Timers2.step_all s).1).2 ↔ _
      simp [List.mem_append, not_or]
    rw [hmem]
    exact ⟨h1.1, ih (Timers2.step_all s).1 i h1.2⟩

/-- After `timerStop`, slot `i` is not both active and running. -/
theorem Timers2.timerStop_kills (i : Nat) (s : Timers2) :
    ∀ sl2, (Timers2.timerStop i s).1.timer_list[i]? = some sl2 →
      (sl2.active && sl2.running) = false := by
  intro sl2 h2
  unfold Timers2.timerStop at h2
  split at h2
  · next sl heq =>
    have h3 : (s.timer_list.set i { sl with running := false })[i]? = some sl2 := h2
    rw [List.getElem?_set_eq_of_lt _ (getElem?_some_lt heq)] at h3
    cases h3
    simp
  · next heq =>
    have h3 : s.timer_list[i]? = some sl2 := h2
    rw [heq] at h3
    exact Option.noConfusion h3

/-- After the one-argument `set`, slot `i` is not both active and running. -/
theorem Timers2.timerSet_kills (i d : Nat) (s : Timers2) :
    ∀ sl2, (Timers2.timerSet i d s).1.timer_list[i]? = some sl2 →
      (sl2.active && sl2.running) = false := by
  intro sl2 h2
  unfold Timers2.timerSet at h2
  split at h2
  · next sl heq =>
    split at h2
    · next =>
      have h3 : (s.timer_list.set i { sl with duration := d, running := false })[i]? =
          some sl2 := h2
      rw [List.getElem?_set_eq_of_lt _ (getElem?_some_lt heq)] at h3
      cases h3
      simp
    · next hact =>
      have h3 : s.timer_list[i]? = some sl2 := h2
      rw [heq] at h3
      cases h3
      have : sl2.active = false := by
        revert hact
        cases sl2.active <;> simp
      simp [this]
  · next heq =>
    have h3 : s.timer_list[i]? = some sl2 := h2
    rw [heq] at h3
    exact Option.noConfusion h3

/-- After the two-argument `set`, slot `i` is not both active and running. -/
theorem Timers2.timerSetCb_kills (i d c : Nat) (s : Timers2) :
    ∀ sl2, (Timers2.timerSetCb i d c s).1.timer_list[i]? = some sl2 →
      (sl2.active && sl2.running) = false := by
  intro sl2 h2
  unfold Timers2.timerSetCb at h2
  split at h2
  · next sl heq =>
    split at h2
    · next =>
      have h3 : (s.timer_list.set i
          { sl with callback := some c, duration := d, running := false })[i]? = some sl2 := h2
      rw [List.getElem?_set_eq_of_lt _ (getElem?_some_lt heq)] at h3
      cases h3
      simp
    · next hact =>
      have h3 : s.timer_list[i]? = some sl2 := h2
      rw [heq] at h3
      cases h3
      have : sl2.active = false := by
        revert hact
        cases sl2.active <;> simp
      simp [this]
  · next heq =>
    have h3 : s.timer_list[i]? = some sl2 := h2
    rw [heq] at h3
    exact Option.noConfusion h3

/-- C3.  Calling `stop()` on a handle's slot — or re-arming it with either
`set` overload — clears (or finds already cleared) the conjunction of
`active` and `running` for that slot, so no matter how many `step_all()`
calls follow (in particular past the originally scheduled expiry tick),
slot `i`'s callback is never invoked: every stale heap event for `i` is
popped and discarded silently. -/
theorem C3_lazy_invalidation (s : Timers2) (i d c n : Nat) :
    i ∉ (Timers2.stepAllN n (Timers2.timerStop i s).1).2 ∧
    i ∉ (Timers2.stepAllN n (Timers2.timerSet i d s).1).2 ∧
    i ∉ (Timers2.stepAllN n (Timers2.timerSetCb i d c s).1).2 :=
  ⟨Timers2.stepAllN_no_fire n _ i (Timers2.timerStop_kills i s),
   Timers2.stepAllN_no_fire n _ i (Timers2.timerSet_kills i d s),
   Timers2.stepAllN_no_fire n _ i (Timers2.timerSetCb_kills i d c s)⟩

end srslte

namespace srslte

/-- C7.  Destroying a `unique_timer` that still owns its slot clears that
slot to `duration = 0, timeout = 0, running = false, active = false,
callback cleared` (`TimerImpl.mk0`) without invoking the callback (the
event list of the destructor is empty); after a move, destroying the
moved-from handle changes no slot state, while destroying the moved-to
handle clears the slot. -/
theorem C7_handle_ownership (s : Timers2) (h : UniqueTimer)
    (howns : h.owns = true) (hlt : h.timer_id < s.timer_list.length) :
    Timers2.destroyTimer s h =
      ({ s with timer_list := s.timer_list.set h.timer_id TimerImpl.mk0 }, []) ∧
    (Timers2.destroyTimer s h).1.timer_list[h.timer_id]? = some TimerImpl.mk0 ∧
    Timers2.destroyTimer s ((Timers2.moveCtor h).2) = (s, []) ∧
    Timers2.destroyTimer s ((Timers2.moveCtor h).1) =
      ({ s with timer_list := s.timer_list.set h.timer_id TimerImpl.mk0 }, []) := by
  refine ⟨?_, ?_, ?_, ?_⟩
  · simp [Timers2.destroyTimer, howns]
  · simp [Timers2.destroyTimer, howns]
    rw [List.getElem?_set_eq_of_lt _ hlt]
  · simp [Timers2.destroyTimer, Timers2.moveCtor]
  · simp [Timers2.destroyTimer, Timers2.moveCtor, howns]

/-- C7, witness on a one-slot service. -/
theorem C7_handle_ownership_witness :
    Timers2.destroyTimer ⟨[⟨4, 9, true, true, some 5⟩], [], 3⟩ ⟨true, 0⟩ =
      (⟨[TimerImpl.mk0], [], 3⟩, []) ∧
    (Timers2.destroyTimer ⟨[⟨4, 9, true, true, some 5⟩], [], 3⟩
      ⟨true, 0⟩).1.timer_list[(0 : Nat)]? = some TimerImpl.mk0 ∧
    Timers2.destroyTimer ⟨[⟨4, 9, true, true, some 5⟩], [], 3⟩
      ((Timers2.moveCtor ⟨true, 0⟩).2) = (⟨[⟨4, 9, true, true, some 5⟩], [], 3⟩, []) ∧
    Timers2.destroyTimer ⟨[⟨4, 9, true, true, some 5⟩], [], 3⟩
      ((Timers2.moveCtor ⟨true, 0⟩).1) = (⟨[TimerImpl.mk0], [], 3⟩, []) :=
  C7_handle_ownership ⟨[⟨4, 9, true, true, some 5⟩], [], 3⟩ ⟨true, 0⟩ rfl (by decide)

/-- C10.  `unique_timer::stop()` is unconditional: for every slot state —
including an inactive slot — it clears the `running` flag, changes nothing
else, and never logs (its flag is `false`); by contrast, `run()` and both
`set` overloads on an inactive slot log an error and change nothing. -/
theorem C10_stop_unconditional (s : Timers2) (i d c : Nat) (sl : TimerImpl)
    (htl : s.timer_list[i]? = some sl) :
    Timers2.timerStop i s =
      ({ s with timer_list := s.timer_list.set i { sl with running := false } }, false) ∧
    (sl.active = false →
      Timers2.timerRun i s = (s, true) ∧
      Timers2.timerSet i d s = (s, true) ∧
      Timers2.timerSetCb i d c s = (s, true)) := by
  constructor
  · simp [Timers2.timerStop, htl]
  · intro hact
    refine ⟨?_, ?_, ?_⟩ <;>
      simp [Timers2.timerRun, Timers2.timerSet, Timers2.timerSetCb, htl, hact]

/-- C10, witness on an inactive (yet `running`-flagged) slot. -/
theorem C10_stop_unconditional_witness :
    Timers2.timerStop 0 ⟨[⟨7, 9, true, false, some 2⟩], [], 1⟩ =
      (⟨[⟨7, 9, false, false, some 2⟩], [], 1⟩, false) ∧
    Timers2.timerRun 0 ⟨[⟨7, 9, true, false, some 2⟩], [], 1⟩ =
      (⟨[⟨7, 9, true, false, some 2⟩], [], 1⟩, true) ∧
    Timers2.timerSet 0 6 ⟨[⟨7, 9, true, false, some 2⟩], [], 1⟩ =
      (⟨[⟨7, 9, true, false, some 2⟩], [], 1⟩, true) ∧
    Timers2.timerSetCb 0 6 8 ⟨[⟨7, 9, true, false, some 2⟩], [], 1⟩ =
      (⟨[⟨7, 9, true, false, some 2⟩], [], 1⟩, true) := by
  have h := C10_stop_unconditional ⟨[⟨7, 9, true, false, some 2⟩], [], 1⟩ 0 6 8
    ⟨7, 9, true, false, some 2⟩ rfl
  exact ⟨h.1, (h.2 rfl).1, (h.2 rfl).2.1, (h.2 rfl).2.2⟩

end srslte

namespace srslte

/-- Overwriting slot `j` with a slot of identical `active` flag changes no
slot's activity. -/
theorem Timers2.activeIn_set_same (tl : List TimerImpl) (j : Nat) (sl x : TimerImpl)
    (i : Nat) (hj : tl[j]? = some sl) (hx : x.active = sl.active) :
    Timers2.activeIn i (tl.set j x) = Timers2.activeIn i tl := by
  by_cases hij : i = j
  · subst hij
    rw [Timers2.activeIn, Timers2.activeIn,
        List.getElem?_set_eq_of_lt x (getElem?_some_lt hj), hj]
    simp [hx]
  · rw [Timers2.activeIn, Timers2.activeIn,
        List.getElem?_set_ne (fun hc => hij hc.symm)]

/-- The drain loop changes no slot's `active` flag. -/
theorem Timers2.stepLoop_activeIn : ∀ (heap : List (Nat × Nat)) (cur : Nat)
    (tl : List TimerImpl) (i : Nat),
    Timers2.activeIn i (Timers2.stepLoop cur tl heap).1 = Timers2.activeIn i tl := by
  intro heap
  induction heap with
  | nil => intro cur tl i; rfl
  | cons e rest ih =>
    intro cur tl i
    obtain ⟨tid, tmo⟩ := e
    rw [Timers2.stepLoop_cons]
    split
    · split
      · next sl heq =>
        split
        · split
          · next =>
            rw [show ((Timers2.stepLoop cur (tl.set tid { sl with running := false }) rest).1,
                  (Timers2.stepLoop cur (tl.set tid { sl with running := false }) rest).2.1,
                  tid :: (Timers2.stepLoop cur
                    (tl.set tid { sl with running := false }) rest).2.2).1 =
                (Timers2.stepLoop cur (tl.set tid { sl with running := false }) rest).1 from rfl]
            rw [ih cur (tl.set tid { sl with running := false }) i]
            exact Timers2.activeIn_set_same tl tid sl _ i heq rfl
          · exact ih cur tl i
        · exact ih cur tl i
      · exact ih cur tl i
    · rfl

/-- `step_all()` changes no slot's `active` flag. -/
theorem Timers2.activeAt_step_all (i : Nat) (s : Timers2) :
    Timers2.activeAt i (Timers2.step_all s).1 = Timers2.activeAt i s :=
  Timers2.stepLoop_activeIn s.running_timers ((s.cur_time + 1) % U32) s.timer_list i

/-- `stop_all()` changes no slot's `active` flag. -/
theorem Timers2.activeAt_stop_all (i : Nat) (s : Timers2) :
    Timers2.activeAt i (Timers2.stop_all s) = Timers2.activeAt i s := by
  show Timers2.activeIn i (s.timer_list.map (fun sl => { sl with running := false })) =
    Timers2.activeIn i s.timer_list
  rw [Timers2.activeIn, Timers2.activeIn, List.getElem?_map]
  cases s.timer_list[i]? <;> rfl

/-- `run()` changes no slot's `active` flag. -/
theorem Timers2.activeAt_timerRun (j i : Nat) (s : Timers2) :
    Timers2.activeAt i (Timers2.timerRun j s).1 = Timers2.activeAt i s := by
  unfold Timers2.timerRun
  split
  · next sl heq =>
    split
    · exact Timers2.activeIn_set_same s.timer_list j sl _ i heq rfl
    · rfl
  · rfl

/-- The one-argument `set` changes no slot's `active` flag. -/
theorem Timers2.activeAt_timerSet (j d i : Nat) (s : Timers2) :
    Timers2.activeAt i (Timers2.timerSet j d s).1 = Timers2.activeAt i s := by
  unfold Timers2.timerSet
  split
  · next sl heq =>
    split
    · exact Timers2.activeIn_set_same s.timer_list j sl _ i heq rfl
    · rfl
  · rfl

/-- The two-argument `set` changes no slot's `active` flag. -/
theorem Timers2.activeAt_timerSetCb (j d c i : Nat) (s : Timers2) :
    Timers2.activeAt i (Timers2.timerSetCb j d c s).1 = Timers2.activeAt i s := by
  unfold Timers2.timerSetCb
  split
  · next sl heq =>
    split
    · exact Timers2.activeIn_set_same s.timer_list j sl _ i heq rfl
    · rfl
  · rfl

/-- `stop()` changes no slot's `active` flag. -/
theorem Timers2.activeAt_timerStop (j i : Nat) (s : Timers2) :
    Timers2.activeAt i (Timers2.timerStop j s).1 = Timers2.activeAt i s := by
  unfold Timers2.timerStop
  split
  · next sl heq => exact Timers2.activeIn_set_same s.timer_list j sl _ i heq rfl
  · rfl

/-- The slot `findInactive` returns is genuinely inactive. -/
theorem Timers2.findInactive_spec : ∀ (tl : List TimerImpl) (j : Nat),
    Timers2.findInactive tl = some j → ∃ sl, tl[j]? = some sl ∧ sl.active = false := by
  intro tl
  induction tl with
  | nil => intro j h; exact Option.noConfusion h
  | cons sl rest ih =>
    intro j h
    have h2 : (if sl.active = true then (Timers2.findInactive rest).map (· + 1)
        else some 0) = some j := h
    split at h2
    · cases hk : Timers2.findInactive rest with
      | none => rw [hk] at h2; exact Option.noConfusion h2
      | some k =>
        rw [hk] at h2
        have hj : k + 1 = j := by simpa using h2
        obtain ⟨sl2, hsl2, hsl2a⟩ := ih k hk
        subst hj
        exact ⟨sl2, by simpa using hsl2, hsl2a⟩
    · next hact =>
      have hj : 0 = j := by simpa using h2
      subst hj
      refine ⟨sl, by simp, ?_⟩
      revert hact
      cases sl.active <;> simp

/-- `get_unique_timer()` keeps every already-active slot active. -/
theorem Timers2.activeAt_getU (i : Nat) (s : Timers2)
    (h : Timers2.activeAt i s = true) :
    Timers2.activeAt i (Timers2.get_unique_timer s).1 = true := by
  unfold Timers2.get_unique_timer
  cases hfi : Timers2.findInactive s.timer_list with
  | some j =>
    obtain ⟨sl, hj, hact⟩ := Timers2.findInactive_spec s.timer_list j hfi
    show Timers2.activeIn i
      (match s.timer_list[j]? with
       | some sl2 => s.timer_list.set j { sl2 with active := true }
       | none => s.timer_list) = true
    have hji : j ≠ i := by
      intro hc
      subst hc
      simp only [Timers2.activeAt, Timers2.activeIn, hj] at h
      rw [hact] at h
      exact Bool.noConfusion h
    simp only [hj]
    rw [Timers2.activeIn, List.getElem?_set_ne hji]
    exact h
  | none =>
    have hsome : ∃ sl, s.timer_list[i]? = some sl ∧ sl.active = true := by
      rw [Timers2.activeAt, Timers2.activeIn] at h
      cases htl : s.timer_list[i]? with
      | some sl => rw [htl] at h; exact ⟨sl, rfl, h⟩
      | none => rw [htl] at h; exact Bool.noConfusion h
    obtain ⟨sl, htl, hact⟩ := hsome
    show Timers2.activeIn i (s.timer_list ++ [{ TimerImpl.mk0 with active := true }]) = true
    rw [Timers2.activeIn, List.getElem?_append]
    rw [if_pos (getElem?_some_lt htl), htl]
    exact hact

/-- While slot `i` is active, `get_unique_timer()` never hands out id `i`. -/
theorem Timers2.getU_id_ne (i : Nat) (s : Timers2)
    (h : Timers2.activeAt i s = true) :
    (Timers2.get_unique_timer s).2.timer_id ≠ i := by
  unfold Timers2.get_unique_timer
  cases hfi : Timers2.findInactive s.timer_list with
  | some j =>
    obtain ⟨sl, hj, hact⟩ := Timers2.findInactive_spec s.timer_list j hfi
    show j ≠ i
    intro hc
    subst hc
    simp only [Timers2.activeAt, Timers2.activeIn, hj] at h
    rw [hact] at h
    exact Bool.noConfusion h
  | none =>
    show s.timer_list.length ≠ i
    have : i < s.timer_list.length := by
      rw [Timers2.activeAt, Timers2.activeIn] at h
      cases htl : s.timer_list[i]? with
      | some sl => exact getElem?_some_lt htl
      | none => rw [htl] at h; exact Bool.noConfusion h
    omega

/-- Destroying a handle for slot `j ≠ i` changes nothing at slot `i`. -/
theorem Timers2.activeAt_destroy (j i : Nat) (s : Timers2) (hne : j ≠ i) :
    Timers2.activeAt i (Timers2.destroyTimer s ⟨true, j⟩).1 = Timers2.activeAt i s := by
  show Timers2.activeIn i (s.timer_list.set j TimerImpl.mk0) = Timers2.activeIn i s.timer_list
  rw [Timers2.activeIn, Timers2.activeIn, List.getElem?_set_ne hne]

/-- Every public operation other than destroying slot `i`'s handle keeps
slot `i` active. -/
theorem Timers2.activeAt_applyOp (s : Timers2) (i : Nat) (op : Timers2.Op)
    (hop : op ≠ Timers2.Op.destroy i) (h : Timers2.activeAt i s = true) :
    Timers2.activeAt i (Timers2.applyOp s op) = true := by
  cases op with
  | stepOne => rw [Timers2.applyOp, Timers2.activeAt_step_all]; exact h
  | stopEverything => rw [Timers2.applyOp, Timers2.activeAt_stop_all]; exact h
  | runT j => rw [Timers2.applyOp, Timers2.activeAt_timerRun]; exact h
  | setT j d => rw [Timers2.applyOp, Timers2.activeAt_timerSet]; exact h
  | setTC j d c => rw [Timers2.applyOp, Timers2.activeAt_timerSetCb]; exact h
  | stopT j => rw [Timers2.applyOp, Timers2.activeAt_timerStop]; exact h
  | getU => rw [Timers2.applyOp]; exact Timers2.activeAt_getU i s h
  | destroy j =>
    have hne : j ≠ i := fun hc => hop (by rw [hc])
    rw [Timers2.applyOp, Timers2.activeAt_destroy j i s hne]
    exact h

/-- Slot `i` stays active across any operation sequence that never destroys
its handle. -/
theorem Timers2.activeAt_applyOps : ∀ (ops : List Timers2.Op) (s : Timers2) (i : Nat),
    Timers2.Op.destroy i ∉ ops → Timers2.activeAt i s = true →
    Timers2.activeAt i (Timers2.applyOps s ops) = true := by
  intro ops
  induction ops with
  | nil => intro s i _ h; exact h
  | cons op rest ih =>
    intro s i hnot h
    rw [Timers2.applyOps]
    refine ih (Timers2.applyOp s op) i (fun hc => hnot (List.mem_cons_of_mem _ hc)) ?_
    exact Timers2.activeAt_applyOp s i op
      (fun hc => hnot (by rw [hc]; exact List.mem_cons_self ..)) h

end srslte

namespace srslte

/-- C9.  Move-assigning handle `b` onto handle `a`, which owns an active
slot, touches only the two handles (the service state is returned
untouched — `operator=` never calls `clear()` on `a`'s slot), so that slot
keeps `active = true` with its whole state intact; afterwards no live
handle refers to it, and as long as no handle for it is destroyed —
which none can be — every reachable later state keeps it active and
`get_unique_timer()` never hands its id out again. -/
theorem C9_move_assign_leaks_slot (s : Timers2) (a b : UniqueTimer)
    (_howns : a.owns = true) (hact : Timers2.activeAt a.timer_id s = true) :
    Timers2.moveAssign s a b = (s, ⟨b.owns, b.timer_id⟩, ⟨false, b.timer_id⟩) ∧
    (∀ ops : List Timers2.Op, Timers2.Op.destroy a.timer_id ∉ ops →
      Timers2.activeAt a.timer_id (Timers2.applyOps s ops) = true ∧
      (Timers2.get_unique_timer (Timers2.applyOps s ops)).2.timer_id ≠ a.timer_id) := by
  refine ⟨rfl, fun ops hnot => ?_⟩
  have hactive := Timers2.activeAt_applyOps ops s a.timer_id hnot hact
  exact ⟨hactive, Timers2.getU_id_ne _ _ hactive⟩

/-- C9, witness: a one-slot service, a three-operation continuation. -/
theorem C9_move_assign_leaks_slot_witness :
    Timers2.moveAssign ⟨[⟨2, 7, true, true, some 3⟩], [], 5⟩ ⟨true, 0⟩ ⟨false, 2⟩ =
      (⟨[⟨2, 7, true, true, some 3⟩], [], 5⟩, ⟨false, 2⟩, ⟨false, 2⟩) ∧
    Timers2.activeAt 0 (Timers2.applyOps ⟨[⟨2, 7, true, true, some 3⟩], [], 5⟩
      [Timers2.Op.stepOne, Timers2.Op.getU, Timers2.Op.stopT 0]) = true ∧
    (Timers2.get_unique_timer (Timers2.applyOps ⟨[⟨2, 7, true, true, some 3⟩], [], 5⟩
      [Timers2.Op.stepOne, Timers2.Op.getU, Timers2.Op.stopT 0])).2.timer_id ≠ 0 := by
  have h := C9_move_assign_leaks_slot ⟨[⟨2, 7, true, true, some 3⟩], [], 5⟩
    ⟨true, 0⟩ ⟨false, 2⟩ rfl (by decide)
  exact ⟨h.1,
    (h.2 [Timers2.Op.stepOne, Timers2.Op.getU, Timers2.Op.stopT 0] (by decide)).1,
    (h.2 [Timers2.Op.stepOne, Timers2.Op.getU, Timers2.Op.stopT 0] (by decide)).2⟩

end srslte
